import Mathlib

/-!
Shallow embedding of the Play-to-Earn savings group ledger
(src/src/App.tsx): the tier catalog, member registration with its
validation chain, the weekly clock, withdrawal, totals and the
projected-payout arithmetic.

Monetary amounts and rates are modelled as exact rationals.  Every
numeric value reachable in the program (tier amounts 10000/20000/30000,
rates 0.05/0.1/0.2, the derived weekly interests 500/2000/6000 and their
integer combinations with small week counts) is computed exactly by IEEE
double arithmetic, so the rational model agrees with the JavaScript
numbers on all reachable states.  Week counters are integers.  The one
JavaScript-specific piece kept explicit is the result of
`Number(formState.amount)`, which can be NaN or an infinity: it is
modelled by `JSNum`.
-/

/-- A tier of the static catalog (an entry of `TIERS` in App.tsx). -/
structure Tier where
  id : String
  name : String
  amount : ℚ
  rate : ℚ
  description : String
deriving DecidableEq

def tier1 : Tier := ⟨"tier1", "Tier 1", 10000, 0.05, "5% interest per week"⟩

def tier2 : Tier := ⟨"tier2", "Tier 2", 20000, 0.1, "10% interest per week"⟩

def tier3 : Tier := ⟨"tier3", "Tier 3", 30000, 0.2, "20% interest per week"⟩

/-- The fixed, read-only catalog `TIERS`. -/
def TIERS : List Tier := [tier1, tier2, tier3]

/-- `MAX_MEMBERS = 12`. -/
def MAX_MEMBERS : Nat := 12

/-- `getTier` as written in the source:
`TIERS.find((tier) => tier.id === tierId)`.  The source's trailing `!`
(non-null assertion) makes the `none` case a programming-contract
violation; the spec names that failure `NotFoundError`. -/
def getTier (tierId : String) : Option Tier :=
  TIERS.find? (fun tier => tier.id == tierId)

/-- The TypeScript type `TierId = 'tier1' | 'tier2' | 'tier3'`: the only
values the UI can pass to the registration handler. -/
inductive TierId where
  | tier1
  | tier2
  | tier3
deriving DecidableEq

/-- The string a `TierId` value denotes. -/
def TierId.str : TierId → String
  | .tier1 => "tier1"
  | .tier2 => "tier2"
  | .tier3 => "tier3"

/-- `getTier` restricted to well-typed tier ids, total — this is the
meaning of the source's non-null assertion `!` on the `find` result. -/
def getTierT : TierId → Tier
  | .tier1 => tier1
  | .tier2 => tier2
  | .tier3 => tier3

/-- A registered member (`Member` in App.tsx); `startWeek` is what the
spec calls `joinWeek`. -/
structure Member where
  id : String
  name : String
  tierId : TierId
  amount : ℚ
  weeklyInterest : ℚ
  startWeek : ℤ
deriving DecidableEq

/-- JavaScript `String.prototype.trim()` (used as `formState.name.trim()`):
drops leading and trailing whitespace.  Written by structural recursion
over the character list so that concrete instances evaluate. -/
def jsTrim (s : String) : String :=
  ⟨((s.data.dropWhile Char.isWhitespace).reverse.dropWhile Char.isWhitespace).reverse⟩

/-- The IEEE value `Number(formState.amount)`: NaN, an infinity, or a
finite value (exact here, see the header note). -/
inductive JSNum where
  | nan
  | posInf
  | negInf
  | fin (q : ℚ)
deriving DecidableEq

/-- `Number.isNaN` on a parsed amount. -/
def JSNum.isNaN : JSNum → Bool
  | .nan => true
  | _ => false

/-- The ledger state held by the component: the `members` list and the
`currentWeek` counter (initially 1). -/
structure LedgerState where
  members : List Member
  currentWeek : ℤ
deriving DecidableEq

/-- The initial state: `useState<Member[]>([])`, `useState(1)`. -/
def initialState : LedgerState := ⟨[], 1⟩

/-- The outcome of one submit: a new member, or the validation error the
handler reports (`setError`).  `tierMismatchError` carries the tier's
required amount, as the message does. -/
inductive RegOutcome where
  | ok (member : Member)
  | emptyNameError
  | invalidAmountError
  | tierMismatchError (required : ℚ)
  | capacityExceededError
deriving DecidableEq

/-- Whether the outcome is a success. -/
def RegOutcome.isOk : RegOutcome → Bool
  | .ok _ => true
  | _ => false

/-- `handleSubmit` (App.tsx lines 43–82), as a function of the form
fields, a fresh id (`crypto.randomUUID()`) and the state; it returns the
outcome together with the state after the call.  `parsedAmount` is the
already-parsed `Number(formState.amount)`.  The third check is the
source's `parsedAmount !== selectedTier.amount`: JavaScript strict
inequality against a finite number, which holds for NaN, both infinities
and every different finite value. -/
def handleSubmit (formName : String) (formTierId : TierId) (parsedAmount : JSNum)
    (freshId : String) (s : LedgerState) : RegOutcome × LedgerState :=
  let trimmedName := jsTrim formName
  let selectedTier := getTierT formTierId
  if trimmedName = "" then
    (RegOutcome.emptyNameError, s)
  else if parsedAmount.isNaN then
    (RegOutcome.invalidAmountError, s)
  else
    match parsedAmount with
    | JSNum.fin q =>
      if q ≠ selectedTier.amount then
        (RegOutcome.tierMismatchError selectedTier.amount, s)
      else if MAX_MEMBERS ≤ s.members.length then
        (RegOutcome.capacityExceededError, s)
      else
        let newMember : Member :=
          { id := freshId
            name := trimmedName
            tierId := formTierId
            amount := q
            weeklyInterest := q * selectedTier.rate
            startWeek := s.currentWeek }
        (RegOutcome.ok newMember, { s with members := s.members ++ [newMember] })
    | _ => (RegOutcome.tierMismatchError selectedTier.amount, s)

/-- `handleWithdraw` (App.tsx lines 89–91):
`setMembers(prev => prev.filter(member => member.id !== memberId))`. -/
def handleWithdraw (s : LedgerState) (memberId : String) : LedgerState :=
  { s with members := s.members.filter (fun member => member.id != memberId) }

/-- `advanceWeek` (App.tsx lines 93–95): `setCurrentWeek(prev => prev + 1)`. -/
def advanceWeek (s : LedgerState) : LedgerState :=
  { s with currentWeek := s.currentWeek + 1 }

/-- `computeProjectedTotal` (App.tsx lines 244–247). -/
def computeProjectedTotal (member : Member) (currentWeek : ℤ) : ℚ :=
  let weeksActive : ℤ := max 1 (currentWeek - member.startWeek + 1)
  member.amount + member.weeklyInterest * (weeksActive : ℚ)

/-- The three aggregate totals (the `useMemo` at App.tsx lines 35–41). -/
structure Totals where
  totalPrincipal : ℚ
  totalWithInterest : ℚ
  totalWeeklyInterest : ℚ
deriving DecidableEq

/-- `totals`: three `reduce` folds over the member list. -/
def totals (members : List Member) (currentWeek : ℤ) : Totals :=
  { totalPrincipal := members.foldl (fun sum member => sum + member.amount) 0
    totalWithInterest :=
      members.foldl (fun sum member => sum + computeProjectedTotal member currentWeek) 0
    totalWeeklyInterest := members.foldl (fun sum member => sum + member.weeklyInterest) 0 }

/-- One user-triggered operation on the ledger state. -/
inductive Step : LedgerState → LedgerState → Prop where
  | register (s : LedgerState) (formName : String) (formTierId : TierId)
      (parsedAmount : JSNum) (freshId : String) :
      Step s (handleSubmit formName formTierId parsedAmount freshId s).2
  | withdraw (s : LedgerState) (memberId : String) :
      Step s (handleWithdraw s memberId)
  | advance (s : LedgerState) :
      Step s (advanceWeek s)

/-- The states reachable from the initial state by user operations. -/
inductive Reachable : LedgerState → Prop where
  | init : Reachable initialState
  | step {s s' : LedgerState} : Reachable s → Step s s' → Reachable s'

/-! ### Characterization lemmas for `handleSubmit` -/

theorem handleSubmit_emptyName (formName : String) (tid : TierId) (amt : JSNum) (fid : String)
    (s : LedgerState) (h : jsTrim formName = "") :
    handleSubmit formName tid amt fid s = (RegOutcome.emptyNameError, s) := by
  simp [handleSubmit, h]

theorem handleSubmit_nan (formName : String) (tid : TierId) (fid : String)
    (s : LedgerState) (h : jsTrim formName ≠ "") :
    handleSubmit formName tid JSNum.nan fid s = (RegOutcome.invalidAmountError, s) := by
  simp [handleSubmit, h, JSNum.isNaN]

theorem handleSubmit_posInf (formName : String) (tid : TierId) (fid : String)
    (s : LedgerState) (h : jsTrim formName ≠ "") :
    handleSubmit formName tid JSNum.posInf fid s
      = (RegOutcome.tierMismatchError (getTierT tid).amount, s) := by
  simp [handleSubmit, h, JSNum.isNaN]

theorem handleSubmit_negInf (formName : String) (tid : TierId) (fid : String)
    (s : LedgerState) (h : jsTrim formName ≠ "") :
    handleSubmit formName tid JSNum.negInf fid s
      = (RegOutcome.tierMismatchError (getTierT tid).amount, s) := by
  simp [handleSubmit, h, JSNum.isNaN]

theorem handleSubmit_mismatch (formName : String) (tid : TierId) (q : ℚ) (fid : String)
    (s : LedgerState) (h : jsTrim formName ≠ "") (hq : q ≠ (getTierT tid).amount) :
    handleSubmit formName tid (JSNum.fin q) fid s
      = (RegOutcome.tierMismatchError (getTierT tid).amount, s) := by
  simp [handleSubmit, h, JSNum.isNaN, hq]

theorem handleSubmit_capacity (formName : String) (tid : TierId) (q : ℚ) (fid : String)
    (s : LedgerState) (h : jsTrim formName ≠ "") (hq : q = (getTierT tid).amount)
    (hlen : MAX_MEMBERS ≤ s.members.length) :
    handleSubmit formName tid (JSNum.fin q) fid s
      = (RegOutcome.capacityExceededError, s) := by
  simp [handleSubmit, h, JSNum.isNaN, hq, hlen]

theorem handleSubmit_ok (formName : String) (tid : TierId) (q : ℚ) (fid : String)
    (s : LedgerState) (h : jsTrim formName ≠ "") (hq : q = (getTierT tid).amount)
    (hlen : s.members.length < MAX_MEMBERS) :
    handleSubmit formName tid (JSNum.fin q) fid s
      = (RegOutcome.ok ⟨fid, jsTrim formName, tid, q, q * (getTierT tid).rate, s.currentWeek⟩,
         ⟨s.members ++ [⟨fid, jsTrim formName, tid, q, q * (getTierT tid).rate, s.currentWeek⟩],
          s.currentWeek⟩) := by
  simp [handleSubmit, h, JSNum.isNaN, hq, Nat.not_le.mpr hlen]

/-- Every call to `handleSubmit` either leaves the state unchanged and
reports an error, or (only when there was room) appends one member
stamped with the current week. -/
theorem handleSubmit_cases (formName : String) (tid : TierId) (amt : JSNum) (fid : String)
    (s : LedgerState) :
    ((handleSubmit formName tid amt fid s).2 = s
      ∧ ∀ member, (handleSubmit formName tid amt fid s).1 ≠ RegOutcome.ok member)
    ∨ (s.members.length < MAX_MEMBERS
      ∧ ∃ member : Member, member.startWeek = s.currentWeek
        ∧ (handleSubmit formName tid amt fid s).1 = RegOutcome.ok member
        ∧ (handleSubmit formName tid amt fid s).2 = ⟨s.members ++ [member], s.currentWeek⟩) := by
  by_cases hn : jsTrim formName = ""
  · rw [handleSubmit_emptyName formName tid amt fid s hn]
    exact Or.inl ⟨rfl, fun member => by simp⟩
  cases amt with
  | nan =>
    rw [handleSubmit_nan formName tid fid s hn]
    exact Or.inl ⟨rfl, fun member => by simp⟩
  | posInf =>
    rw [handleSubmit_posInf formName tid fid s hn]
    exact Or.inl ⟨rfl, fun member => by simp⟩
  | negInf =>
    rw [handleSubmit_negInf formName tid fid s hn]
    exact Or.inl ⟨rfl, fun member => by simp⟩
  | fin q =>
    by_cases hq : q = (getTierT tid).amount
    · by_cases hlen : s.members.length < MAX_MEMBERS
      · rw [handleSubmit_ok formName tid q fid s hn hq hlen]
        exact Or.inr ⟨hlen, ⟨_, rfl, rfl, rfl⟩⟩
      · rw [handleSubmit_capacity formName tid q fid s hn hq (Nat.not_lt.mp hlen)]
        exact Or.inl ⟨rfl, fun member => by simp⟩
    · rw [handleSubmit_mismatch formName tid q fid s hn hq]
      exact Or.inl ⟨rfl, fun member => by simp⟩

/-! ### Projected payout -/

/-- Unfolding `computeProjectedTotal`. -/
theorem computeProjectedTotal_eq (member : Member) (currentWeek : ℤ) :
    computeProjectedTotal member currentWeek
      = member.amount
        + member.weeklyInterest * ((max 1 (currentWeek - member.startWeek + 1) : ℤ) : ℚ) := rfl

/-- Claim C1: for every member and week, the projected payout equals
`depositAmount + weeklyInterest × max(1, currentWeek − joinWeek + 1)`;
at the member's own join week it equals `depositAmount + weeklyInterest`;
and a tier3 member (deposit 30000, rate 0.20, weeklyInterest 6000)
registered at week 4 and queried at week 4 yields 36000. -/
theorem c1_projected_payout :
    (∀ (member : Member) (currentWeek : ℤ),
      computeProjectedTotal member currentWeek
          = member.amount
            + member.weeklyInterest * ((max 1 (currentWeek - member.startWeek + 1) : ℤ) : ℚ)
        ∧ computeProjectedTotal member member.startWeek
          = member.amount + member.weeklyInterest)
    ∧ (∃ member : Member,
        (handleSubmit "Ada" TierId.tier3 (JSNum.fin 30000) "id-1" ⟨[], 4⟩).1
            = RegOutcome.ok member
          ∧ member.amount = 30000 ∧ member.weeklyInterest = 6000 ∧ member.startWeek = 4
          ∧ computeProjectedTotal member 4 = 36000) := by
  constructor
  · intro member currentWeek
    refine ⟨rfl, ?_⟩
    rw [computeProjectedTotal_eq]
    simp
  · refine ⟨⟨"id-1", jsTrim "Ada", TierId.tier3, 30000,
      30000 * (getTierT TierId.tier3).rate, 4⟩, ?_, rfl, ?_, rfl, ?_⟩
    · rw [handleSubmit_ok "Ada" TierId.tier3 30000 "id-1" ⟨[], 4⟩ (by decide) rfl (by decide)]
    · show (30000 : ℚ) * tier3.rate = 6000
      norm_num [tier3]
    · rw [computeProjectedTotal_eq]
      show (30000 : ℚ) + 30000 * tier3.rate * ((max 1 (4 - 4 + 1) : ℤ) : ℚ) = 36000
      norm_num [tier3]

/-! ### Registration validation -/

/-- Claim C2, counterexample: an amount string that parses to an
infinity (`Number("Infinity")`) is not rejected by the NaN check; with a
valid name and tier1 selected it falls through to the tier-equality
check and produces `TierMismatchError`, not `InvalidAmountError`. -/
theorem c2_infinity_counterexample :
    (handleSubmit "Ada" TierId.tier1 JSNum.posInf "id-1" initialState).1
        = RegOutcome.tierMismatchError 10000
      ∧ (handleSubmit "Ada" TierId.tier1 JSNum.posInf "id-1" initialState).1
        ≠ RegOutcome.invalidAmountError := by
  rw [handleSubmit_posInf "Ada" TierId.tier1 "id-1" initialState (by decide)]
  exact ⟨rfl, by simp⟩

/-- Claim C2 (amended): registration validates in the fixed order
(1) trimmed name non-empty, (2) the parsed amount is not NaN,
(3) the amount strictly equals the selected tier's deposit,
(4) `members.size < 12`, first failure winning; an amount that parses to
an infinity passes check (2) and fails with `TierMismatchError`, not
`InvalidAmountError` — only NaN produces `InvalidAmountError`. -/
theorem c2_validation_order (formName : String) (tid : TierId) (amt : JSNum)
    (fid : String) (s : LedgerState) :
    (jsTrim formName = "" →
        (handleSubmit formName tid amt fid s).1 = RegOutcome.emptyNameError)
    ∧ (jsTrim formName ≠ "" → amt = JSNum.nan →
        (handleSubmit formName tid amt fid s).1 = RegOutcome.invalidAmountError)
    ∧ (jsTrim formName ≠ "" → (amt = JSNum.posInf ∨ amt = JSNum.negInf) →
        (handleSubmit formName tid amt fid s).1
            = RegOutcome.tierMismatchError (getTierT tid).amount
          ∧ (handleSubmit formName tid amt fid s).1 ≠ RegOutcome.invalidAmountError)
    ∧ (∀ q : ℚ, jsTrim formName ≠ "" → amt = JSNum.fin q → q ≠ (getTierT tid).amount →
        (handleSubmit formName tid amt fid s).1
          = RegOutcome.tierMismatchError (getTierT tid).amount)
    ∧ (∀ q : ℚ, jsTrim formName ≠ "" → amt = JSNum.fin q → q = (getTierT tid).amount →
        MAX_MEMBERS ≤ s.members.length →
        (handleSubmit formName tid amt fid s).1 = RegOutcome.capacityExceededError)
    ∧ (∀ q : ℚ, jsTrim formName ≠ "" → amt = JSNum.fin q → q = (getTierT tid).amount →
        s.members.length < MAX_MEMBERS →
        ∃ member, (handleSubmit formName tid amt fid s).1 = RegOutcome.ok member) := by
  refine ⟨?_, ?_, ?_, ?_, ?_, ?_⟩
  · intro hn
    rw [handleSubmit_emptyName formName tid amt fid s hn]
  · intro hn ha
    subst ha
    rw [handleSubmit_nan formName tid fid s hn]
  · intro hn ha
    rcases ha with ha | ha <;> subst ha
    · rw [handleSubmit_posInf formName tid fid s hn]
      exact ⟨rfl, by simp⟩
    · rw [handleSubmit_negInf formName tid fid s hn]
      exact ⟨rfl, by simp⟩
  · intro q hn ha hq
    subst ha
    rw [handleSubmit_mismatch formName tid q fid s hn hq]
  · intro q hn ha hq hlen
    subst ha
    rw [handleSubmit_capacity formName tid q fid s hn hq hlen]
  · intro q hn ha hq hlen
    subst ha
    rw [handleSubmit_ok formName tid q fid s hn hq hlen]
    exact ⟨_, rfl⟩

/-! ### Tier catalog lookup -/

/-- Claim C3: `getTier` returns the tier with the matching id for each
of the three fixed identifiers, and finds no tier (the spec's
`NotFoundError`, the source's violated non-null assertion) for every
other identifier. -/
theorem c3_tier_lookup :
    (getTier "tier1" = some tier1 ∧ getTier "tier2" = some tier2
      ∧ getTier "tier3" = some tier3)
    ∧ ∀ tierId : String, tierId ≠ "tier1" → tierId ≠ "tier2" → tierId ≠ "tier3" →
        getTier tierId = none := by
  constructor
  · refine ⟨?_, ?_, ?_⟩ <;> rfl
  · intro tierId h1 h2 h3
    rw [getTier, List.find?_eq_none]
    intro t ht
    simp [TIERS, tier1, tier2, tier3] at ht
    rcases ht with ht | ht | ht <;> subst ht <;>
      simp [tier1, tier2, tier3] <;> intro h <;>
      first
        | exact h1 h.symm
        | exact h2 h.symm
        | exact h3 h.symm

/-! ### Atomicity of registration -/

/-- Claim C4: registration is atomic — on any validation failure the
state is completely unchanged, and on success exactly one member is
appended at the end of `members`, with `currentWeek` untouched. -/
theorem c4_register_atomic (formName : String) (tid : TierId) (amt : JSNum)
    (fid : String) (s : LedgerState) :
    ((handleSubmit formName tid amt fid s).1.isOk = false →
        (handleSubmit formName tid amt fid s).2 = s)
    ∧ (∀ member, (handleSubmit formName tid amt fid s).1 = RegOutcome.ok member →
        (handleSubmit formName tid amt fid s).2.members = s.members ++ [member]
        ∧ (handleSubmit formName tid amt fid s).2.members.length = s.members.length + 1
        ∧ (handleSubmit formName tid amt fid s).2.currentWeek = s.currentWeek) := by
  rcases handleSubmit_cases formName tid amt fid s with ⟨h2, hne⟩ | ⟨hlen, m, hms, h1, h2⟩
  · exact ⟨fun _ => h2, fun member hmem => absurd hmem (hne member)⟩
  · constructor
    · intro hfalse
      rw [h1] at hfalse
      simp [RegOutcome.isOk] at hfalse
    · intro member hmem
      rw [h1] at hmem
      have hm : m = member := by simpa using hmem
      subst hm
      rw [h2]
      exact ⟨rfl, by simp, rfl⟩

/-! ### Reachability invariants -/

/-- The member count never exceeds `MAX_MEMBERS` in a reachable state. -/
theorem members_length_le_of_reachable {s : LedgerState} (h : Reachable s) :
    s.members.length ≤ MAX_MEMBERS := by
  induction h with
  | init => simp [initialState, MAX_MEMBERS]
  | step hr hstep ih =>
    rename_i s s'
    cases hstep with
    | register formName tid amt fid =>
      rcases handleSubmit_cases formName tid amt fid s with ⟨h2, _⟩ | ⟨hlen, m, _, _, h2⟩
      · rw [h2]; exact ih
      · rw [h2]; simpa using hlen
    | withdraw mid =>
      exact le_trans (List.length_filter_le _ _) ih
    | advance => exact ih

/-- Every member of a reachable state joined no later than the current
week. -/
theorem startWeek_le_of_reachable {s : LedgerState} (h : Reachable s) :
    ∀ member ∈ s.members, member.startWeek ≤ s.currentWeek := by
  induction h with
  | init => intro m hm; simp [initialState] at hm
  | step hr hstep ih =>
    rename_i s s'
    cases hstep with
    | register formName tid amt fid =>
      rcases handleSubmit_cases formName tid amt fid s with ⟨h2, _⟩ | ⟨_, m, hms, _, h2⟩
      · rw [h2]; exact ih
      · rw [h2]
        intro x hx
        rcases List.mem_append.mp hx with hx | hx
        · exact ih x hx
        · have : x = m := by simpa using hx
          subst this
          exact le_of_eq hms
    | withdraw mid =>
      intro x hx
      exact ih x (List.mem_of_mem_filter hx)
    | advance =>
      intro x hx
      exact le_trans (ih x hx) (by simp [advanceWeek])

/-- Claim C5: in every reachable state `0 ≤ members.size ≤ 12`, and a
valid registration attempt (non-blank name, amount exactly the selected
tier's deposit) made when the group already holds 12 members fails with
`CapacityExceededError` and leaves the state unchanged. -/
theorem c5_capacity_invariant (s : LedgerState) (hs : Reachable s) :
    (0 ≤ s.members.length ∧ s.members.length ≤ MAX_MEMBERS)
    ∧ (∀ (formName : String) (tid : TierId) (fid : String), jsTrim formName ≠ "" →
        s.members.length = MAX_MEMBERS →
        handleSubmit formName tid (JSNum.fin (getTierT tid).amount) fid s
          = (RegOutcome.capacityExceededError, s)) := by
  refine ⟨⟨Nat.zero_le _, members_length_le_of_reachable hs⟩, ?_⟩
  intro formName tid fid hn hlen
  exact handleSubmit_capacity formName tid (getTierT tid).amount fid s hn rfl (le_of_eq hlen.symm)

/-! ### A reachable full group, for the capacity witness -/

/-- One registration of "Ada" into tier 1 (a fixed valid submit). -/
def registerAda (s : LedgerState) : LedgerState :=
  (handleSubmit "Ada" TierId.tier1 (JSNum.fin 10000) "uuid-1" s).2

theorem registerAda_reachable {s : LedgerState} (h : Reachable s) :
    Reachable (registerAda s) :=
  Reachable.step h (Step.register s "Ada" TierId.tier1 (JSNum.fin 10000) "uuid-1")

theorem registerAda_iter_reachable (n : ℕ) {s : LedgerState} (h : Reachable s) :
    Reachable (registerAda^[n] s) := by
  induction n with
  | zero => simpa using h
  | succ n ih =>
    rw [Function.iterate_succ_apply']
    exact registerAda_reachable ih

theorem registerAda_length {s : LedgerState} (hlt : s.members.length < MAX_MEMBERS) :
    (registerAda s).members.length = s.members.length + 1 := by
  unfold registerAda
  rw [handleSubmit_ok "Ada" TierId.tier1 10000 "uuid-1" s (by decide) rfl hlt]
  simp

theorem registerAda_iter_length :
    ∀ n : ℕ, n ≤ MAX_MEMBERS → (registerAda^[n] initialState).members.length = n := by
  intro n
  induction n with
  | zero => intro _; rfl
  | succ n ih =>
    intro hn
    have hn' : n ≤ MAX_MEMBERS := Nat.le_of_succ_le hn
    have hlt : (registerAda^[n] initialState).members.length < MAX_MEMBERS := by
      rw [ih hn']; omega
    rw [Function.iterate_succ_apply', registerAda_length hlt, ih hn']

/-- Twelve successive valid registrations from the initial state: a
reachable state whose group is full. -/
def fullState : LedgerState := registerAda^[12] initialState

theorem fullState_reachable : Reachable fullState :=
  registerAda_iter_reachable 12 Reachable.init

theorem fullState_length : fullState.members.length = MAX_MEMBERS :=
  registerAda_iter_length 12 le_rfl

/-- Witness for C5: the full state built by twelve valid registrations
is reachable, holds exactly 12 members, and the 13th valid registration
attempt fails with `CapacityExceededError` leaving the state unchanged. -/
theorem c5_capacity_witness :
    (0 ≤ fullState.members.length ∧ fullState.members.length ≤ MAX_MEMBERS)
    ∧ handleSubmit "Neo" TierId.tier1 (JSNum.fin (getTierT TierId.tier1).amount) "uuid-13"
        fullState
      = (RegOutcome.capacityExceededError, fullState) := by
  have h := c5_capacity_invariant fullState fullState_reachable
  exact ⟨h.1, h.2 "Neo" TierId.tier1 "uuid-13" (by decide) fullState_length⟩

/-! ### Withdrawal -/

/-- Claim C6: `handleWithdraw` keeps `currentWeek`, filters out exactly
the members whose id equals `memberId` while preserving the relative
order of the rest (a sublist), keeps every member with a different id,
is a no-op when no member has that id, and is idempotent. -/
theorem c6_withdraw_filter (s : LedgerState) (memberId : String) :
    (handleWithdraw s memberId).currentWeek = s.currentWeek
    ∧ (handleWithdraw s memberId).members
        = s.members.filter (fun member => member.id != memberId)
    ∧ (handleWithdraw s memberId).members.Sublist s.members
    ∧ (∀ member ∈ (handleWithdraw s memberId).members, member.id ≠ memberId)
    ∧ (∀ member ∈ s.members, member.id ≠ memberId →
        member ∈ (handleWithdraw s memberId).members)
    ∧ ((∀ member ∈ s.members, member.id ≠ memberId) → handleWithdraw s memberId = s)
    ∧ handleWithdraw (handleWithdraw s memberId) memberId = handleWithdraw s memberId := by
  refine ⟨rfl, rfl, List.filter_sublist _, ?_, ?_, ?_, ?_⟩
  · intro member hmem
    have := (List.mem_filter.mp hmem).2
    simpa using this
  · intro member hmem hne
    exact List.mem_filter.mpr ⟨hmem, by simpa using hne⟩
  · intro hall
    have : s.members.filter (fun member => member.id != memberId) = s.members :=
      List.filter_eq_self.mpr (fun member hmem => by simpa using hall member hmem)
    simp [handleWithdraw, this]
  · simp [handleWithdraw, List.filter_filter]

/-! ### Week advancement -/

/-- Claim C7: `advanceWeek` increments `currentWeek` by exactly 1,
always succeeds, leaves the member list entirely unchanged, and `n`
applications starting from week `w` end at week `w + n`. -/
theorem c7_advanceWeek_pure_increment (s : LedgerState) :
    (advanceWeek s).currentWeek = s.currentWeek + 1
    ∧ (advanceWeek s).members = s.members
    ∧ ∀ n : ℕ, (advanceWeek^[n] s).currentWeek = s.currentWeek + n
        ∧ (advanceWeek^[n] s).members = s.members := by
  refine ⟨rfl, rfl, ?_⟩
  intro n
  induction n with
  | zero => simp
  | succ n ih =>
    rw [Function.iterate_succ_apply']
    constructor
    · have h1 : (advanceWeek (advanceWeek^[n] s)).currentWeek
          = (advanceWeek^[n] s).currentWeek + 1 := rfl
      rw [h1, ih.1]
      push_cast
      ring
    · have h2 : (advanceWeek (advanceWeek^[n] s)).members
          = (advanceWeek^[n] s).members := rfl
      rw [h2, ih.2]

/-! ### Totals -/

/-- A left fold that adds an extracted value per member equals the
start value plus the sum of the extracted values. -/
theorem foldl_add_extract (f : Member → ℚ) (c : ℚ) (l : List Member) :
    l.foldl (fun sum member => sum + f member) c = c + (l.map f).sum := by
  induction l generalizing c with
  | nil => simp
  | cons a l ih => simp [ih, add_assoc]

/-- Claim C8: `totalWeeklyInterest` is the same for any two week values
— it equals the sum of each member's stored `weeklyInterest` and does
not depend on `currentWeek`. -/
theorem c8_totalWeeklyInterest_week_independent (members : List Member) (w1 w2 : ℤ) :
    (totals members w1).totalWeeklyInterest = (totals members w2).totalWeeklyInterest
    ∧ (totals members w1).totalWeeklyInterest
        = (members.map (fun member => member.weeklyInterest)).sum := by
  refine ⟨rfl, ?_⟩
  show members.foldl (fun sum member => sum + member.weeklyInterest) 0
    = (members.map (fun member => member.weeklyInterest)).sum
  rw [foldl_add_extract]
  simp

/-! ### Join week invariant -/

/-- Claim C9: in every reachable ledger state, every member's join week
(`startWeek`) is at most `currentWeek`: registration stamps the member
with the current week, and no operation lowers the counter. -/
theorem c9_joinWeek_le_currentWeek (s : LedgerState) (hs : Reachable s) :
    ∀ member ∈ s.members, member.startWeek ≤ s.currentWeek :=
  startWeek_le_of_reachable hs

/-- Witness for C9: the state after one registration is reachable and
its member (stamped with week 1) satisfies the invariant. -/
theorem c9_joinWeek_witness :
    (⟨"uuid-1", jsTrim "Ada", TierId.tier1, 10000,
        10000 * (getTierT TierId.tier1).rate, 1⟩ : Member).startWeek
      ≤ (registerAda initialState).currentWeek :=
  c9_joinWeek_le_currentWeek (registerAda initialState)
    (registerAda_reachable Reachable.init)
    ⟨"uuid-1", jsTrim "Ada", TierId.tier1, 10000, 10000 * (getTierT TierId.tier1).rate, 1⟩
    (by
      unfold registerAda
      rw [handleSubmit_ok "Ada" TierId.tier1 10000 "uuid-1" initialState
        (by decide) rfl (by decide)]
      simp [initialState])

/-! ### Monotonicity of the projected payout -/

/-- Claim C10: for a member with non-negative `weeklyInterest` the
projected payout is monotone in the query week, and for positive
`weeklyInterest` it strictly increases from one week to the next once
the query week has reached the member's join week. -/
theorem c10_payout_monotone (member : Member) (w w' : ℤ)
    (hwi : 0 ≤ member.weeklyInterest) (hw : w ≤ w') :
    computeProjectedTotal member w ≤ computeProjectedTotal member w'
    ∧ (0 < member.weeklyInterest → member.startWeek ≤ w →
        computeProjectedTotal member w < computeProjectedTotal member (w + 1)) := by
  constructor
  · rw [computeProjectedTotal_eq, computeProjectedTotal_eq]
    have hle : (max 1 (w - member.startWeek + 1) : ℤ)
        ≤ max 1 (w' - member.startWeek + 1) := by
      apply max_le_max le_rfl
      omega
    have hleq : ((max 1 (w - member.startWeek + 1) : ℤ) : ℚ)
        ≤ ((max 1 (w' - member.startWeek + 1) : ℤ) : ℚ) := by
      exact_mod_cast hle
    have := mul_le_mul_of_nonneg_left hleq hwi
    linarith
  · intro hpos hsw
    rw [computeProjectedTotal_eq, computeProjectedTotal_eq]
    have hlt : (max 1 (w - member.startWeek + 1) : ℤ)
        < max 1 (w + 1 - member.startWeek + 1) := by
      rw [max_eq_right (by omega : (1:ℤ) ≤ w - member.startWeek + 1),
        max_eq_right (by omega : (1:ℤ) ≤ w + 1 - member.startWeek + 1)]
      omega
    have hltq : ((max 1 (w - member.startWeek + 1) : ℤ) : ℚ)
        < ((max 1 (w + 1 - member.startWeek + 1) : ℤ) : ℚ) := by
      exact_mod_cast hlt
    have := mul_lt_mul_of_pos_left hltq hpos
    linarith

/-- Witness for C10: the tier3 member of the spec's example (weekly
interest 6000, joined week 4) has a payout that does not decrease from
week 4 to week 7 and strictly increases from week 4 to week 5. -/
theorem c10_payout_monotone_witness :
    computeProjectedTotal ⟨"id-1", "Ada", TierId.tier3, 30000, 6000, 4⟩ 4
      ≤ computeProjectedTotal ⟨"id-1", "Ada", TierId.tier3, 30000, 6000, 4⟩ 7
    ∧ computeProjectedTotal ⟨"id-1", "Ada", TierId.tier3, 30000, 6000, 4⟩ 4
      < computeProjectedTotal ⟨"id-1", "Ada", TierId.tier3, 30000, 6000, 4⟩ 5 := by
  have h := c10_payout_monotone ⟨"id-1", "Ada", TierId.tier3, 30000, 6000, 4⟩ 4 7
    (show (0:ℚ) ≤ 6000 by norm_num) (show (4:ℤ) ≤ 7 by norm_num)
  exact ⟨h.1, h.2 (show (0:ℚ) < 6000 by norm_num) (show (4:ℤ) ≤ 4 by norm_num)⟩
